import Mathlib

set_option autoImplicit false

/-!
Verification of `astrbot_plugin_gemini_patcher` (`src/main.py`) against its
natural-language specification.

The two patched functions are embedded shallowly:

* `_patched_prepare_query_config` (main.py lines 48-67) builds on the base
  configuration returned by the wrapped provider method and, when the provider
  configuration requests thoughts, constructs a `ThinkingConfig`.  Construction
  of the SDK configuration object may be rejected by the installed schema
  (a version-compatibility `ValidationError`); the source contains no
  try/except around it, so such an error propagates.

* `_patched_process_content_parts` (main.py lines 70-108) partitions the parts
  of `result.candidates[0].content.parts` into thought parts and final parts,
  replaces the parts sequence in place (slice assignment, line 95), and
  attaches the accumulated reasoning text to the `LLMResponse` when non-empty.
  The `try` block catches exactly `IndexError` and `AttributeError` (line 97).

Python mutation of the parts list is modelled with an explicit store of lists
addressed by natural-number references: slice assignment `parts[:] = fs`
becomes a write through the same reference, so that reference identity and
observation by other holders are expressible.  Python exceptions are modelled
with `Except PyErr`: attribute access on `None` raises `AttributeError`,
indexing an empty list raises `IndexError`, and subscripting or iterating
`None` raises `TypeError` (which the except clause does NOT catch).

The `StreamReconciler` component described by the specification has no source
under `src/`; it is modelled from the specification text where needed.
-/

namespace GeminiPatcher

/-- Python exception classes that the patched functions can raise or catch. -/
inductive PyErr
  | indexError
  | attributeError
  | typeError
  | validationError
deriving DecidableEq, Repr

/-- The clause `except (IndexError, AttributeError)` at main.py line 97:
exactly these two exception classes are caught. -/
def isCaught : PyErr → Bool
  | PyErr.indexError => true
  | PyErr.attributeError => true
  | _ => false

/-- One response part.  `thought = none` models a part whose `thought`
attribute is absent or falsy (the `hasattr` guard at line 86 plus truthiness);
`text = none` models a part whose `text` attribute is missing entirely, so
that evaluating `part.text` raises `AttributeError`; `text = some none`
models `part.text is None`; `text = some (some s)` models the string `s`. -/
structure Part where
  thought : Option Bool
  text : Option (Option String)
deriving DecidableEq, Repr

/-- The mutable parts containers: a store of part lists addressed by
references.  A Python list object is a reference into this store. -/
abbrev Store := Nat → List Part

/-- Slice assignment `parts[:] = fs` writes through the reference: the
container keeps its identity and every holder of the same reference observes
the new contents. -/
def Store.write (st : Store) (ref : Nat) (ps : List Part) : Store :=
  fun n => if n = ref then ps else st n

/-- The `content` object of a candidate.  `parts = none` models
`content.parts is None`; `parts = some ref` is a reference to the list. -/
structure Content where
  parts : Option Nat
deriving DecidableEq, Repr

/-- One response candidate; `content = none` models `candidate.content is None`. -/
structure Candidate where
  content : Option Content
deriving DecidableEq, Repr

/-- The provider response.  `candidates = none` models `result.candidates is
None`; a `none` list element models a null candidate. -/
structure GenerateContentResponse where
  candidates : Option (List (Option Candidate))
deriving DecidableEq, Repr

/-- The host response object; `reasoning_content` is the attribute installed
by `setattr` at main.py line 105 (absent when `none`). -/
structure LLMResponse where
  reasoning_content : Option String
deriving DecidableEq, Repr

/-- The access chain `result.candidates[0].content.parts` (main.py line 84)
with Python semantics: subscripting `None` raises `TypeError`; indexing an
empty list raises `IndexError`; attribute access on `None` raises
`AttributeError`.  On success it yields the value of the `parts` attribute,
which may itself be `None`. -/
def getPartsRef (result : GenerateContentResponse) : Except PyErr (Option Nat) :=
  match result.candidates with
  | none => Except.error PyErr.typeError
  | some [] => Except.error PyErr.indexError
  | some (none :: _) => Except.error PyErr.attributeError
  | some (some c :: _) =>
    match c.content with
    | none => Except.error PyErr.attributeError
    | some ct => Except.ok ct.parts

/-- The classification test at main.py line 86:
`hasattr(part, "thought") and part.thought and part.text`.
Returns `some s` when the part is a thought carrying the non-empty text `s`,
`none` when the part is kept as final content.  Reading `part.text` is
attempted only when `part.thought` is truthy, and raises `AttributeError`
when the `text` attribute is missing. -/
def thoughtText (p : Part) : Except PyErr (Option String) :=
  if p.thought = some true then
    match p.text with
    | none => Except.error PyErr.attributeError
    | some none => Except.ok none
    | some (some s) => Except.ok (if s = "" then none else some s)
  else
    Except.ok none

/-- The loop at main.py lines 85-92: accumulates thought texts (in order) and
final parts (in order); an exception raised mid-loop stops the loop with the
accumulators as built so far. -/
def runLoop : List Part → List String → List Part →
    List String × List Part × Option PyErr
  | [], ts, fs => (ts, fs, none)
  | p :: ps, ts, fs =>
    match thoughtText p with
    | Except.error e => (ts, fs, some e)
    | Except.ok (some s) => runLoop ps (ts ++ [s]) fs
    | Except.ok none => runLoop ps ts (fs ++ [p])

/-- Lines 102-105: `if thinking_text:` attach the fragments joined with a
blank line, else leave the response object untouched. -/
def attachReasoning (llm_response : LLMResponse) (thinking_text : List String) :
    LLMResponse :=
  match thinking_text with
  | [] => llm_response
  | _ =>
    { llm_response with
      reasoning_content := some (String.intercalate "\n\n" thinking_text) }

/-- `_patched_process_content_parts` (main.py lines 70-108), up to the final
delegation to the stored original method (external to this repository).
Returns the updated parts store and response object, or the Python exception
that escapes the function.  Inside the `try` block: resolve the parts
reference; iterating a `None` parts value raises `TypeError` (uncaught);
run the loop; on success perform the in-place slice assignment (line 95);
a caught exception skips the assignment but keeps the thought fragments
accumulated so far, which lines 102-105 still attach. -/
def _patched_process_content_parts (st : Store) (result : GenerateContentResponse)
    (llm_response : LLMResponse) : Except PyErr (Store × LLMResponse) :=
  match getPartsRef result with
  | Except.error e =>
    if isCaught e then Except.ok (st, llm_response) else Except.error e
  | Except.ok none => Except.error PyErr.typeError
  | Except.ok (some ref) =>
    match runLoop (st ref) [] [] with
    | (ts, fs, none) =>
      Except.ok (st.write ref fs, attachReasoning llm_response ts)
    | (ts, _, some e) =>
      if isCaught e then Except.ok (st, attachReasoning llm_response ts)
      else Except.error e

/-- The thought text extracted from a part when classification succeeds
without an exception (`none` when the part is kept as final content). -/
def thoughtOf (p : Part) : Option String :=
  match thoughtText p with
  | Except.ok s => s
  | Except.error _ => none

/-- A part tagged as thought in the sense of the specification: `thought`
truthy with a present, non-empty `text`. -/
def isThoughtPart (p : Part) : Bool :=
  match p.thought, p.text with
  | some true, some (some s) => s != ""
  | _, _ => false

/-- The SDK `ThinkingConfig` object (fields of main.py lines 62-65). -/
structure ThinkingConfig where
  include_thoughts : Option Bool
  thinking_budget : Int
deriving DecidableEq, Repr

/-- The request configuration; only the field this plugin touches is
modelled, the remaining provider fields are untouched by the source. -/
structure GenerateContentConfig where
  thinking_config : Option ThinkingConfig
deriving DecidableEq, Repr

/-- The provider configuration dictionary: `get` with a default models the
two lookups at main.py lines 60 and 64. -/
structure ProviderConfig where
  gm_include_thoughts : Option Bool
  gm_thinking_budget : Option Int
deriving DecidableEq, Repr

/-- The configuration schema of the installed SDK version: whether the
`ThinkingConfig` constructor accepts the `include_thoughts` field. -/
structure Schema where
  acceptsIncludeThoughts : Bool
deriving DecidableEq, Repr

/-- Construction `types.ThinkingConfig(include_thoughts=..., thinking_budget=...)`
(main.py lines 62-65): when the installed schema rejects the
`include_thoughts` field the constructor raises a validation error. -/
def mkThinkingConfig (sch : Schema) (include_thoughts : Bool) (budget : Int) :
    Except PyErr ThinkingConfig :=
  if include_thoughts && !sch.acceptsIncludeThoughts then
    Except.error PyErr.validationError
  else
    Except.ok ⟨some include_thoughts, budget⟩

/-- `_patched_prepare_query_config` (main.py lines 48-67), after the call to
the wrapped original method has produced `original_config`.  When
`gm_include_thoughts` (default `True`) is set, a `ThinkingConfig` with
`include_thoughts=True` and the configured budget (default 2048) is attached.
The source contains no exception handling here: a constructor failure
propagates to the caller. -/
def _patched_prepare_query_config (sch : Schema) (provider_config : ProviderConfig)
    (original_config : GenerateContentConfig) : Except PyErr GenerateContentConfig :=
  if provider_config.gm_include_thoughts.getD true then
    match mkThinkingConfig sch true (provider_config.gm_thinking_budget.getD 2048) with
    | Except.error e => Except.error e
    | Except.ok tc => Except.ok { original_config with thinking_config := some tc }
  else
    Except.ok original_config

/-- Modelled from the spec: one streamed chunk, carrying an optional
reasoning-text field and an optional final-content plain-text rendering
(spec section 4.3; the StreamReconciler source is not under `src/`). -/
structure Chunk where
  reasoningText : Option String
  finalContentText : Option String
deriving DecidableEq, Repr

/-- Modelled from the spec: the aggregate result of a reconciled stream. -/
structure ReasoningResult where
  finalText : String
  reasoningText : Option String
deriving DecidableEq, Repr

/-- Modelled from the spec: the sentinel placeholder substituted when no
final text accumulated; the specification fixes only that it is non-empty. -/
def placeholderText : String := "(no model output)"

/-- Modelled from the spec: trimming surrounding whitespace (Python
`str.strip()`), computed on the character list. -/
def pyStrip (s : String) : String :=
  String.mk (((s.data.dropWhile Char.isWhitespace).reverse.dropWhile
    Char.isWhitespace).reverse)

/-- Modelled from the spec: the per-chunk step of `reconcile`, threading the
reasoning accumulator, the final-text accumulator and the ordered list of
texts forwarded to the live sink. -/
def reconcileLoop : List Chunk → List String → List String → List String →
    List String × List String × List String
  | [], rs, fs, sink => (rs, fs, sink)
  | c :: cs, rs, fs, sink =>
    let racc :=
      match c.reasoningText with
      | some r => if r = "" then (rs, sink) else (rs ++ [r], sink ++ [r])
      | none => (rs, sink)
    let fs2 :=
      match c.finalContentText with
      | some f => if f = "" then fs else fs ++ [f]
      | none => fs
    reconcileLoop cs racc.1 fs2 racc.2

/-- Modelled from the spec (section 4.3): single pass over the chunk
sequence; on exhaustion the final fragments are concatenated with no
separator and trimmed (placeholder when empty) and the reasoning fragments
are joined with a blank line when any exist.  The second component is the
ordered sequence of texts forwarded to the live sink. -/
def reconcile (chunks : List Chunk) : ReasoningResult × List String :=
  let acc := reconcileLoop chunks [] [] []
  let ft := pyStrip (String.join acc.2.1)
  (⟨if ft = "" then placeholderText else ft,
    match acc.1 with
    | [] => none
    | _ => some (String.intercalate "\n\n" acc.1)⟩,
   acc.2.2)

/-- Claim C1, counterexample: on a schema that rejects the
`include_thoughts` field (with thoughts requested by default), the patched
configuration method raises the validation error; in particular it does not
return the fallback configuration holding only the thinking budget that the
claim predicts.  The source has no try/except around the constructor. -/
theorem prepare_query_config_no_fallback_cex :
    _patched_prepare_query_config ⟨false⟩ ⟨none, none⟩ ⟨none⟩ =
      Except.error PyErr.validationError ∧
    _patched_prepare_query_config ⟨false⟩ ⟨none, none⟩ ⟨none⟩ ≠
      Except.ok ⟨some ⟨none, 2048⟩⟩ := by
  exact ⟨rfl, fun h => Except.noConfusion h⟩

/-- Claim C1 (amended): when the configuration schema rejects the
`include_thoughts` field and thoughts are requested (the default), the
patched configuration method propagates the constructor's validation error to
its caller; no retry with a reduced `reasoningConfig` is attempted, so the
call fails. -/
theorem prepare_query_config_propagates_rejection (sch : Schema)
    (pc : ProviderConfig) (base : GenerateContentConfig)
    (hs : sch.acceptsIncludeThoughts = false)
    (hi : pc.gm_include_thoughts.getD true = true) :
    _patched_prepare_query_config sch pc base =
      Except.error PyErr.validationError := by
  unfold _patched_prepare_query_config
  simp [hi, mkThinkingConfig, hs]

/-- Witness for the amended claim C1 at a concrete schema, provider
configuration and base configuration. -/
theorem prepare_query_config_propagates_rejection_witness :
    (Schema.mk false).acceptsIncludeThoughts = false ∧
    (ProviderConfig.mk none none).gm_include_thoughts.getD true = true ∧
    _patched_prepare_query_config ⟨false⟩ ⟨none, none⟩ ⟨some ⟨some true, 7⟩⟩ =
      Except.error PyErr.validationError :=
  ⟨rfl, rfl,
    prepare_query_config_propagates_rejection ⟨false⟩ ⟨none, none⟩
      ⟨some ⟨some true, 7⟩⟩ rfl rfl⟩

/-- Claim C7 (confirmed): with `gm_include_thoughts` set to false the patched
configuration method returns the base configuration unchanged (no
`thinking_config` is added); with thoughts requested (the default) and the
default budget, on a schema accepting `include_thoughts`, it attaches
`ThinkingConfig` with `include_thoughts = true` and `thinking_budget = 2048`. -/
theorem prepare_query_config_flag_behavior (sch : Schema) (pc : ProviderConfig)
    (base : GenerateContentConfig) :
    (pc.gm_include_thoughts = some false →
      _patched_prepare_query_config sch pc base = Except.ok base) ∧
    (pc.gm_include_thoughts.getD true = true → pc.gm_thinking_budget = none →
      sch.acceptsIncludeThoughts = true →
      _patched_prepare_query_config sch pc base =
        Except.ok { base with thinking_config := some ⟨some true, 2048⟩ }) := by
  constructor
  · intro hoff
    unfold _patched_prepare_query_config
    simp [hoff]
  · intro hi hb hs
    unfold _patched_prepare_query_config
    simp [hi, hb, mkThinkingConfig, hs]

/-- Witness for claim C7: both branches instantiated at concrete inputs
(flag explicitly false; flag and budget left to their defaults). -/
theorem prepare_query_config_flag_behavior_witness :
    ((ProviderConfig.mk (some false) none).gm_include_thoughts = some false ∧
      _patched_prepare_query_config ⟨true⟩ ⟨some false, none⟩ ⟨none⟩ =
        Except.ok ⟨none⟩) ∧
    ((ProviderConfig.mk none none).gm_include_thoughts.getD true = true ∧
      (ProviderConfig.mk none none).gm_thinking_budget = none ∧
      (Schema.mk true).acceptsIncludeThoughts = true ∧
      _patched_prepare_query_config ⟨true⟩ ⟨none, none⟩ ⟨none⟩ =
        Except.ok ⟨some ⟨some true, 2048⟩⟩) :=
  ⟨⟨rfl,
    (prepare_query_config_flag_behavior ⟨true⟩ ⟨some false, none⟩ ⟨none⟩).1 rfl⟩,
   ⟨rfl, rfl, rfl,
    (prepare_query_config_flag_behavior ⟨true⟩ ⟨none, none⟩ ⟨none⟩).2 rfl rfl rfl⟩⟩

/-- Claim C2 (code bug): a response whose candidate and content are present
but whose `parts` field is `None` makes the patched function raise an
uncaught `TypeError` (iterating `None` at line 85), instead of returning with
nothing extracted as the specification requires: the except clause at line 97
catches only `IndexError` and `AttributeError`. -/
theorem process_content_parts_missing_parts_raises :
    _patched_process_content_parts (fun _ => [])
      ⟨some [some ⟨some ⟨none⟩⟩]⟩ ⟨none⟩ = Except.error PyErr.typeError := rfl

/-- Claim C6 (confirmed, spec-modelled): over the 3-chunk sequence with
chunk1 carrying reasoning "a", chunk2 carrying reasoning "b" and final "X",
chunk3 carrying final "Y", `reconcile` yields `finalText = "XY"`,
`reasoningText = "a\n\nb"`, and the live sink receives exactly the two
forwarding calls "a" then "b" in that order. -/
theorem reconcile_three_chunks :
    reconcile [⟨some "a", none⟩, ⟨some "b", some "X"⟩, ⟨none, some "Y"⟩] =
      (⟨"XY", some "a\n\nb"⟩, ["a", "b"]) := by
  decide

/-- When a part's classification cannot raise (its `text` attribute is
present whenever `thought` is truthy), `thoughtText` succeeds and returns
`thoughtOf`. -/
theorem thoughtText_no_error (p : Part)
    (h : p.thought = some true → p.text ≠ none) :
    thoughtText p = Except.ok (thoughtOf p) := by
  by_cases hb : p.thought = some true
  · cases htx : p.text with
    | none => exact absurd htx (h hb)
    | some t =>
      cases t with
      | none => simp [thoughtText, thoughtOf, hb, htx]
      | some s => simp [thoughtText, thoughtOf, hb, htx]
  · simp [thoughtText, thoughtOf, hb]

/-- A successful classification never raises, so a part whose classification
succeeds with `none` has a falsy `thought` or an accessible text. -/
theorem wf_of_ok (p : Part) (h : thoughtText p = Except.ok none) :
    p.thought = some true → p.text ≠ none := by
  intro hb htx
  simp [thoughtText, hb, htx] at h

/-- Classification succeeding with `none` means no thought text extracted. -/
theorem thoughtOf_none_of_ok_none (p : Part)
    (h : thoughtText p = Except.ok none) : thoughtOf p = none := by
  simp [thoughtOf, h]

/-- The loop of main.py lines 85-92 on a list whose parts all classify
without an exception: the thought texts are extracted in order and the
remaining parts are kept in order. -/
theorem runLoop_complete (ps : List Part) (a : List String) (f : List Part)
    (h : ∀ p ∈ ps, p.thought = some true → p.text ≠ none) :
    runLoop ps a f =
      (a ++ ps.filterMap thoughtOf,
       f ++ ps.filter (fun p => (thoughtOf p).isNone), none) := by
  induction ps generalizing a f with
  | nil => simp [runLoop]
  | cons p ps ih =>
    have hp : p.thought = some true → p.text ≠ none :=
      h p (List.mem_cons_self p ps)
    have hps : ∀ q ∈ ps, q.thought = some true → q.text ≠ none :=
      fun q hq => h q (List.mem_cons_of_mem p hq)
    cases ht : thoughtOf p with
    | none =>
      simp only [runLoop, thoughtText_no_error p hp, ht, ih _ _ hps,
        List.filterMap_cons, List.filter_cons]
      simp [ht]
    | some s =>
      simp only [runLoop, thoughtText_no_error p hp, ht, ih _ _ hps,
        List.filterMap_cons, List.filter_cons]
      simp [ht]

/-- The patched function on a well-formed response (parts reference resolves
and every part classifies without an exception): the parts container is
rewritten through the same reference to hold exactly the non-thought parts
and the extracted thought texts are attached. -/
theorem process_complete (st : Store) (r : GenerateContentResponse)
    (lr : LLMResponse) (ref : Nat)
    (hr : getPartsRef r = Except.ok (some ref))
    (h : ∀ p ∈ st ref, p.thought = some true → p.text ≠ none) :
    _patched_process_content_parts st r lr =
      Except.ok
        (st.write ref ((st ref).filter (fun p => (thoughtOf p).isNone)),
         attachReasoning lr ((st ref).filterMap thoughtOf)) := by
  simp [_patched_process_content_parts, hr, runLoop_complete (st ref) [] [] h]

/-- A part kept by the filter is not a thought part in the sense of the
specification. -/
theorem keep_not_thought (p : Part) (h : (thoughtOf p).isNone = true) :
    isThoughtPart p = false := by
  cases p with
  | mk th tx =>
    cases th with
    | none => rfl
    | some b =>
      cases b with
      | false => rfl
      | true =>
        cases tx with
        | none => rfl
        | some t =>
          cases t with
          | none => rfl
          | some s =>
            by_cases hs : s = ""
            · simp [isThoughtPart, hs]
            · exfalso
              simp [thoughtOf, thoughtText, hs] at h

/-- On a candidate with no thought parts the patched function rewrites the
parts container with its own contents (a no-op on every container) and does
not touch the response object. -/
theorem partition_noop (st : Store) (r : GenerateContentResponse)
    (lr : LLMResponse) (ref : Nat)
    (hr : getPartsRef r = Except.ok (some ref))
    (h : ∀ p ∈ st ref, thoughtText p = Except.ok none) :
    _patched_process_content_parts st r lr =
      Except.ok (st.write ref (st ref), lr) ∧
    ∀ n, st.write ref (st ref) n = st n := by
  have hwf : ∀ p ∈ st ref, p.thought = some true → p.text ≠ none :=
    fun p hp => wf_of_ok p (h p hp)
  have hfm : (st ref).filterMap thoughtOf = [] := by
    rw [List.filterMap_eq_nil_iff]
    intro p hp
    exact thoughtOf_none_of_ok_none p (h p hp)
  have hfl : (st ref).filter (fun p => (thoughtOf p).isNone) = st ref := by
    rw [List.filter_eq_self]
    intro p hp
    simp [thoughtOf_none_of_ok_none p (h p hp)]
  constructor
  · rw [process_complete st r lr ref hr hwf, hfm, hfl]
    rfl
  · intro n
    unfold Store.write
    by_cases hn : n = ref
    · rw [if_pos hn, hn]
    · rw [if_neg hn]

/-- Claim C3, counterexample: with parts `[thought "a", thought-tagged part
whose text attribute is missing]` the mid-loop `AttributeError` is caught,
the in-place replacement is skipped, and the function returns normally (with
reasoning "a" attached) while the tagged thought part carrying "a" is still
in the candidate's parts sequence. -/
theorem partition_thought_can_remain_cex :
    _patched_process_content_parts
        (fun _ => [Part.mk (some true) (some (some "a")),
          Part.mk (some true) none])
        ⟨some [some ⟨some ⟨some 0⟩⟩]⟩ ⟨none⟩ =
      Except.ok
        ((fun _ => [Part.mk (some true) (some (some "a")),
          Part.mk (some true) none] : Store), ⟨some "a"⟩) ∧
    Part.mk (some true) (some (some "a")) ∈
      ((fun _ => [Part.mk (some true) (some (some "a")),
        Part.mk (some true) none] : Store) 0) ∧
    isThoughtPart (Part.mk (some true) (some (some "a"))) = true := by
  refine ⟨rfl, ?_, by decide⟩
  exact List.mem_cons_self _ _

/-- Claim C3 (amended): for every candidate whose parts all classify without
an exception (whenever `thought` is truthy the `text` attribute is present),
after the patched function returns successfully no part tagged as thought
remains in the candidate's parts sequence. -/
theorem partition_no_thought_remains (st : Store) (r : GenerateContentResponse)
    (lr : LLMResponse) (ref : Nat)
    (hr : getPartsRef r = Except.ok (some ref))
    (h : ∀ p ∈ st ref, p.thought = some true → p.text ≠ none) :
    ∀ st2 lr2, _patched_process_content_parts st r lr = Except.ok (st2, lr2) →
      ∀ p ∈ st2 ref, isThoughtPart p = false := by
  intro st2 lr2 heq p hp
  rw [process_complete st r lr ref hr h] at heq
  simp only [Except.ok.injEq, Prod.mk.injEq] at heq
  rw [← heq.1] at hp
  simp [Store.write] at hp
  exact keep_not_thought p (by simp [hp.2])

/-- Witness for the amended claim C3 at a concrete candidate holding one
thought part and one plain part. -/
theorem partition_no_thought_remains_witness :
    getPartsRef ⟨some [some ⟨some ⟨some 0⟩⟩]⟩ = Except.ok (some 0) ∧
    isThoughtPart (Part.mk none (some (some "x"))) = false := by
  refine ⟨rfl, ?_⟩
  exact partition_no_thought_remains
    (fun _ => [Part.mk (some true) (some (some "t")),
      Part.mk none (some (some "x"))])
    ⟨some [some ⟨some ⟨some 0⟩⟩]⟩ ⟨none⟩ 0 rfl (by decide)
    (Store.write
      (fun _ => [Part.mk (some true) (some (some "t")),
        Part.mk none (some (some "x"))]) 0
      [Part.mk none (some (some "x"))])
    ⟨some "t"⟩ rfl (Part.mk none (some (some "x"))) (by decide)

/-- Claim C4 (confirmed): a part with a present `text` attribute is
classified as a thought (and its text accumulated) iff its `thought` flag is
truthy and its text is a non-empty string; when no such non-empty text
exists it is classified as final, and in particular a part with a truthy
`thought` flag and empty text is appended to the final parts, not extracted. -/
theorem partition_classification_iff (p : Part) (t : Option String)
    (ht : p.text = some t) (ps : List Part) (a : List String) (f : List Part) :
    (∀ s, thoughtText p = Except.ok (some s) ↔
      (p.thought = some true ∧ t = some s ∧ s ≠ "")) ∧
    ((∀ s, ¬(p.thought = some true ∧ t = some s ∧ s ≠ "")) →
      thoughtText p = Except.ok none ∧
      runLoop (p :: ps) a f = runLoop ps a (f ++ [p])) ∧
    (p.thought = some true → t = some "" →
      runLoop (p :: ps) a f = runLoop ps a (f ++ [p])) := by
  by_cases hb : p.thought = some true
  · cases t with
    | none =>
      refine ⟨fun s => by simp [thoughtText, hb, ht], fun hno => ?_, ?_⟩
      · constructor
        · simp [thoughtText, hb, ht]
        · simp [runLoop, thoughtText, hb, ht]
      · intro _ hcon
        exact Option.noConfusion hcon
    | some s0 =>
      by_cases hs0 : s0 = ""
      · subst hs0
        refine ⟨fun s => ?_, fun hno => ?_, fun _ _ => ?_⟩
        · constructor
          · intro hok
            simp [thoughtText, hb, ht] at hok
          · rintro ⟨h1, h2, h3⟩
            cases h2
            exact absurd rfl h3
        · constructor
          · simp [thoughtText, hb, ht]
          · simp [runLoop, thoughtText, hb, ht]
        · simp [runLoop, thoughtText, hb, ht]
      · refine ⟨fun s => ?_, fun hno => ?_, fun _ hcon => ?_⟩
        · constructor
          · intro hok
            simp only [thoughtText, hb, if_pos, ht, if_neg hs0] at hok
            simp only [Except.ok.injEq, Option.some.injEq] at hok
            subst hok
            exact ⟨hb, rfl, hs0⟩
          · rintro ⟨h1, h2, h3⟩
            cases h2
            simp [thoughtText, hb, ht, hs0]
        · exact absurd ⟨hb, rfl, hs0⟩ (hno s0)
        · cases hcon
          exact absurd rfl hs0
  · refine ⟨fun s => ?_, fun hno => ?_, fun hcon _ => absurd hcon hb⟩
    · simp [thoughtText, hb]
    · constructor
      · simp [thoughtText, hb]
      · simp [runLoop, thoughtText, hb]

/-- Witness for claim C4: a part with truthy `thought` flag and empty text
is classified as final content and kept. -/
theorem partition_classification_iff_witness :
    (Part.mk (some true) (some (some ""))).text = some (some "") ∧
    (Part.mk (some true) (some (some ""))).thought = some true ∧
    runLoop [Part.mk (some true) (some (some ""))] [] [] =
      runLoop [] [] ([] ++ [Part.mk (some true) (some (some ""))]) :=
  ⟨rfl, rfl,
    (partition_classification_iff (Part.mk (some true) (some (some "")))
      (some "") rfl [] [] []).2.2 rfl rfl⟩

/-- Claim C5 (confirmed): on a candidate whose parts all classify without an
exception and a response object with no prior reasoning attribute, the
patched function attaches exactly the thought texts in their original order,
joined with a blank-line separator, when at least one was observed, and
leaves the attribute absent (not an empty string) otherwise.
`(st ref).filterMap thoughtOf` is the ordered list of non-empty thought
texts of the candidate's parts. -/
theorem partition_reasoning_join (st : Store) (r : GenerateContentResponse)
    (lr : LLMResponse) (ref : Nat)
    (hr : getPartsRef r = Except.ok (some ref))
    (h : ∀ p ∈ st ref, p.thought = some true → p.text ≠ none)
    (hclean : lr.reasoning_content = none) :
    _patched_process_content_parts st r lr =
      Except.ok
        (st.write ref ((st ref).filter (fun p => (thoughtOf p).isNone)),
         attachReasoning lr ((st ref).filterMap thoughtOf)) ∧
    (attachReasoning lr ((st ref).filterMap thoughtOf)).reasoning_content =
      (match (st ref).filterMap thoughtOf with
       | [] => none
       | s :: rest => some (String.intercalate "\n\n" (s :: rest))) := by
  refine ⟨process_complete st r lr ref hr h, ?_⟩
  cases hts : (st ref).filterMap thoughtOf with
  | nil => simp [attachReasoning, hclean]
  | cons s rest => simp [attachReasoning]

/-- Witness for claim C5: two thought parts "a" and "b" around a plain part
yield the attached reasoning text joined with a blank line. -/
theorem partition_reasoning_join_witness :
    getPartsRef ⟨some [some ⟨some ⟨some 0⟩⟩]⟩ = Except.ok (some 0) ∧
    (LLMResponse.mk none).reasoning_content = none ∧
    (attachReasoning ⟨none⟩
        (((fun _ => [Part.mk (some true) (some (some "a")),
            Part.mk none (some (some "m")),
            Part.mk (some true) (some (some "b"))] : Store) 0).filterMap
          thoughtOf)).reasoning_content = some "a\n\nb" := by
  refine ⟨rfl, rfl, ?_⟩
  have h2 := (partition_reasoning_join
      (fun _ => [Part.mk (some true) (some (some "a")),
        Part.mk none (some (some "m")),
        Part.mk (some true) (some (some "b"))])
      ⟨some [some ⟨some ⟨some 0⟩⟩]⟩ ⟨none⟩ 0 rfl (by decide) rfl).2
  exact h2.trans (by decide)

/-- Claim C8 (confirmed): on a candidate whose parts all classify without an
exception, the patched function performs the slice assignment through the
candidate's own parts reference: the store returned is the input store
written at exactly that reference with the filtered non-thought parts, so
reading the same reference afterwards yields the filtered sequence and every
other container is untouched. -/
theorem partition_in_place_update (st : Store) (r : GenerateContentResponse)
    (lr : LLMResponse) (ref : Nat)
    (hr : getPartsRef r = Except.ok (some ref))
    (h : ∀ p ∈ st ref, p.thought = some true → p.text ≠ none) :
    _patched_process_content_parts st r lr =
      Except.ok
        (st.write ref ((st ref).filter (fun p => (thoughtOf p).isNone)),
         attachReasoning lr ((st ref).filterMap thoughtOf)) ∧
    st.write ref ((st ref).filter (fun p => (thoughtOf p).isNone)) ref =
      (st ref).filter (fun p => (thoughtOf p).isNone) ∧
    ∀ n, n ≠ ref →
      st.write ref ((st ref).filter (fun p => (thoughtOf p).isNone)) n =
        st n := by
  refine ⟨process_complete st r lr ref hr h, ?_, ?_⟩
  · simp [Store.write]
  · intro n hn
    simp [Store.write, hn]

/-- Witness for claim C8: the reference observed after the call holds the
filtered sequence and a different container is untouched. -/
theorem partition_in_place_update_witness :
    getPartsRef ⟨some [some ⟨some ⟨some 0⟩⟩]⟩ = Except.ok (some 0) ∧
    Store.write
        (fun _ => [Part.mk (some true) (some (some "t")),
          Part.mk none (some (some "x"))]) 0
        (((fun _ => [Part.mk (some true) (some (some "t")),
          Part.mk none (some (some "x"))] : Store) 0).filter
          (fun p => (thoughtOf p).isNone)) 0 =
      [Part.mk none (some (some "x"))] ∧
    Store.write
        (fun _ => [Part.mk (some true) (some (some "t")),
          Part.mk none (some (some "x"))]) 0
        (((fun _ => [Part.mk (some true) (some (some "t")),
          Part.mk none (some (some "x"))] : Store) 0).filter
          (fun p => (thoughtOf p).isNone)) 1 =
      (fun _ => [Part.mk (some true) (some (some "t")),
        Part.mk none (some (some "x"))] : Store) 1 := by
  have h := partition_in_place_update
    (fun _ => [Part.mk (some true) (some (some "t")),
      Part.mk none (some (some "x"))])
    ⟨some [some ⟨some ⟨some 0⟩⟩]⟩ ⟨none⟩ 0 rfl (by decide)
  exact ⟨rfl, h.2.1.trans (by decide), h.2.2 1 (by decide)⟩

/-- Claim C9 (confirmed): on a candidate containing no thought parts (every
part classifies as final without an exception), the patched function leaves
every container's contents unchanged and the response object untouched, and
a second application does the same: both applications are no-ops returning
no reasoning. -/
theorem partition_idempotent_on_filtered (st : Store)
    (r : GenerateContentResponse) (lr : LLMResponse) (ref : Nat)
    (hr : getPartsRef r = Except.ok (some ref))
    (h : ∀ p ∈ st ref, thoughtText p = Except.ok none)
    (hclean : lr.reasoning_content = none) :
    _patched_process_content_parts st r lr =
      Except.ok (st.write ref (st ref), lr) ∧
    (∀ n, st.write ref (st ref) n = st n) ∧
    lr.reasoning_content = none ∧
    _patched_process_content_parts (st.write ref (st ref)) r lr =
      Except.ok
        ((st.write ref (st ref)).write ref ((st.write ref (st ref)) ref),
         lr) ∧
    ∀ n, (st.write ref (st ref)).write ref ((st.write ref (st ref)) ref) n =
      st n := by
  have h1 := partition_noop st r lr ref hr h
  have h2 := partition_noop (st.write ref (st ref)) r lr ref hr
    (by
      intro p hp
      rw [h1.2 ref] at hp
      exact h p hp)
  refine ⟨h1.1, h1.2, hclean, h2.1, ?_⟩
  intro n
  rw [h2.2 n, h1.2 n]

/-- Witness for claim C9 on a one-part candidate with no thought parts. -/
theorem partition_idempotent_on_filtered_witness :
    getPartsRef ⟨some [some ⟨some ⟨some 0⟩⟩]⟩ = Except.ok (some 0) ∧
    (LLMResponse.mk none).reasoning_content = none ∧
    Store.write (fun _ => [Part.mk none none]) 0
        ((fun _ => [Part.mk none none] : Store) 0) 0 =
      (fun _ => [Part.mk none none] : Store) 0 ∧
    _patched_process_content_parts
        (Store.write (fun _ => [Part.mk none none]) 0
          ((fun _ => [Part.mk none none] : Store) 0))
        ⟨some [some ⟨some ⟨some 0⟩⟩]⟩ ⟨none⟩ =
      Except.ok
        (Store.write
          (Store.write (fun _ => [Part.mk none none]) 0
            ((fun _ => [Part.mk none none] : Store) 0)) 0
          (Store.write (fun _ => [Part.mk none none]) 0
            ((fun _ => [Part.mk none none] : Store) 0) 0),
         ⟨none⟩) := by
  have h := partition_idempotent_on_filtered (fun _ => [Part.mk none none])
    ⟨some [some ⟨some ⟨some 0⟩⟩]⟩ ⟨none⟩ 0 rfl
    (by
      intro p hp
      rw [List.mem_singleton] at hp
      subst hp
      rfl) rfl
  exact ⟨rfl, rfl, h.2.1 0, h.2.2.2.1⟩

/-- Claim C10 (confirmed): when the loop over the parts stops with a caught
exception (`IndexError` or `AttributeError`), the patched function returns
normally with the store untouched: the slice assignment of line 95 runs only
after a complete successful pass, so the candidate's parts sequence is left
entirely unchanged. -/
theorem partition_atomic_on_caught_error (st : Store)
    (r : GenerateContentResponse) (lr : LLMResponse) (ref : Nat)
    (ts : List String) (fs : List Part) (e : PyErr)
    (hr : getPartsRef r = Except.ok (some ref))
    (hl : runLoop (st ref) [] [] = (ts, fs, some e))
    (he : isCaught e = true) :
    _patched_process_content_parts st r lr =
      Except.ok (st, attachReasoning lr ts) := by
  simp [_patched_process_content_parts, hr, hl, he]

/-- Witness for claim C10: a part tagged as thought whose `text` attribute
is missing raises `AttributeError` mid-loop; the function returns with the
original store. -/
theorem partition_atomic_on_caught_error_witness :
    getPartsRef ⟨some [some ⟨some ⟨some 0⟩⟩]⟩ = Except.ok (some 0) ∧
    runLoop ((fun _ => [Part.mk (some true) none] : Store) 0) [] [] =
      ([], [], some PyErr.attributeError) ∧
    isCaught PyErr.attributeError = true ∧
    _patched_process_content_parts (fun _ => [Part.mk (some true) none])
        ⟨some [some ⟨some ⟨some 0⟩⟩]⟩ ⟨none⟩ =
      Except.ok ((fun _ => [Part.mk (some true) none] : Store),
        attachReasoning ⟨none⟩ []) :=
  ⟨rfl, rfl, rfl,
    partition_atomic_on_caught_error (fun _ => [Part.mk (some true) none])
      ⟨some [some ⟨some ⟨some 0⟩⟩]⟩ ⟨none⟩ 0 [] [] PyErr.attributeError
      rfl rfl rfl⟩

end GeminiPatcher
